import Mathlib

/-!
Verification of the statistical aggregation layer of the bulls-analytics
repository (`bulls/analysis/stats.py`), as a shallow embedding in Lean.

Modelling conventions:
* pandas DataFrames of numeric per-game stats become `StatTable`: a list of
  column names plus rows of rationals; shot-event DataFrames become
  `ShotTable` with typed rows (`Shot`), plus the list of column names so the
  source's required-column checks can be expressed.
* Python floats are modelled by exact rationals `ℚ`; Python `round(x, n)`
  (round-half-to-even) is `pyRound`, `int(x)` truncation is `pyInt`.
* A function that can raise (`KeyError` on a missing column) returns
  `Except String _`; a function that silently returns an empty dict/table
  returns an `Option` or an empty list.
* pandas `Series.std` (ddof = 1) is `sampleStd?`; it is `none` when the
  source value is NaN (fewer than two rows) or irrational and hence not
  representable in this exact-rational model.
-/

namespace Bulls

/-- Python `round` to an integer: round half to even (banker's rounding). -/
def roundHalfEven (q : ℚ) : ℤ :=
  let f : ℤ := ⌊q⌋
  let r : ℚ := q - f
  if r < 1/2 then f
  else if 1/2 < r then f + 1
  else if f % 2 = 0 then f else f + 1

/-- Python `round(q, n)` on an exact rational. -/
def pyRound (q : ℚ) (n : ℕ) : ℚ :=
  (roundHalfEven (q * 10 ^ n) : ℚ) / 10 ^ n

/-- Python `int(q)`: truncation toward zero. -/
def pyInt (q : ℚ) : ℤ :=
  if 0 ≤ q then ⌊q⌋ else ⌈q⌉

/-- pandas `Series.mean` on a list of values (callers guard non-emptiness). -/
def listMean (l : List ℚ) : ℚ := l.sum / l.length

/-- pandas `Series.max` on a non-empty list. -/
def listMax : List ℚ → ℚ
  | [] => 0
  | x :: xs => xs.foldl max x

/-- pandas `Series.min` on a non-empty list. -/
def listMin : List ℚ → ℚ
  | [] => 0
  | x :: xs => xs.foldl min x

/-- Exact square root of a rational, `none` if irrational or negative. -/
def ratSqrt? (q : ℚ) : Option ℚ :=
  if q.num < 0 then none
  else
    let n := q.num.toNat.sqrt
    let d := q.den.sqrt
    if n * n = q.num.toNat ∧ d * d = q.den then some ((n : ℚ) / d) else none

/-- Sample variance with ddof = 1, as in pandas `Series.std` squared. -/
def sampleVar (l : List ℚ) : ℚ :=
  (l.map (fun x => (x - listMean l) ^ 2)).sum / ((l.length : ℚ) - 1)

/-- pandas `Series.std` (ddof = 1). `none` models NaN (fewer than two
values) or an irrational standard deviation, which this exact-rational
model cannot represent. -/
def sampleStd? (l : List ℚ) : Option ℚ :=
  if l.length < 2 then none else ratSqrt? (sampleVar l)

/-- First-occurrence deduplication, as in pandas `Series.unique`. -/
def uniqueFirst {α : Type} [DecidableEq α] : List α → List α
  | [] => []
  | x :: xs => x :: uniqueFirst (xs.filter (fun y => y ≠ x))
termination_by l => l.length
decreasing_by
  simp only [List.length_cons]
  exact Nat.lt_succ_of_le (List.length_filter_le _ _)

/-- First element attaining the maximum of `f`, as in pandas `idxmax`
(which returns the first index of the maximum). -/
def argmaxFirst {α : Type} (f : α → ℚ) : List α → Option α
  | [] => none
  | x :: xs =>
    match argmaxFirst f xs with
    | none => some x
    | some y => if f x < f y then some y else some x

/-- A pandas DataFrame of numeric columns: column names plus rows of cells,
row-aligned with `cols` positionally. -/
structure StatTable where
  cols : List String
  rows : List (List ℚ)
deriving DecidableEq, Repr

/-- Index of the first column named `c`. -/
def colIdx? (c : String) : List String → Option ℕ
  | [] => none
  | x :: xs => if x = c then some 0 else (colIdx? c xs).map (· + 1)

/-- Column extraction, `df[c]`: `none` iff the column is absent (in the
source, a `KeyError` when accessed unguardedly). -/
def StatTable.col? (t : StatTable) (c : String) : Option (List ℚ) :=
  (colIdx? c t.cols).map fun i => t.rows.map fun r => r.getD i 0

/-- Adding a derived column on the right, `df[name] = vals`. -/
def addColumn (t : StatTable) (name : String) (vals : List ℚ) : StatTable :=
  ⟨t.cols ++ [name], t.rows.zipWith (fun r v => r ++ [v]) vals⟩

/-- `season_averages` (stats.py lines 7-34): empty table gives an empty
dict; otherwise a dict of the mean of seven fixed columns, any of which is
accessed unguardedly (a missing one raises `KeyError`, modelled by
`Except.error`). -/
def season_averages (t : StatTable) : Except String (List (String × ℚ)) :=
  if t.rows.isEmpty then .ok []
  else
    match t.col? "points", t.col? "rebounds", t.col? "assists", t.col? "steals",
          t.col? "blocks", t.col? "fg_pct", t.col? "fg3_pct" with
    | some pts, some reb, some ast, some stl, some blk, some fgp, some fg3p =>
        .ok [("games", (t.rows.length : ℚ)),
             ("points", listMean pts),
             ("rebounds", listMean reb),
             ("assists", listMean ast),
             ("steals", listMean stl),
             ("blocks", listMean blk),
             ("fg_pct", listMean fgp),
             ("fg3_pct", listMean fg3p)]
    | _, _, _, _, _, _, _ => .error "KeyError"

/-- Result record of `scoring_trend` (stats.py lines 64-110). -/
structure TrendResult where
  direction : String
  average : ℚ
  recent_avg : ℚ
  high : ℚ
  low : ℚ
  last_game : ℚ
deriving DecidableEq, Repr

/-- `scoring_trend` (stats.py lines 64-110): `none` models the empty dict
returned for an empty table or a missing metric column. -/
def scoring_trend (t : StatTable) (metric : String) : Option TrendResult :=
  if t.rows.isEmpty then none
  else
    match t.col? metric with
    | none => none
    | some values =>
      let avg := listMean values
      let recent := if values.length ≥ 5 then values.take 5 else values
      let previous :=
        if values.length ≥ 10 then (values.drop 5).take 5
        else values.drop recent.length
      let recent_avg := if recent.isEmpty then 0 else listMean recent
      let previous_avg := if previous.isEmpty then recent_avg else listMean previous
      let direction :=
        if previous_avg * (11/10) < recent_avg then "up"
        else if recent_avg < previous_avg * (9/10) then "down"
        else "stable"
      some ⟨direction, avg, recent_avg, listMax values, listMin values, values.headD 0⟩

/-- `efficiency_metrics` (stats.py lines 154-192): sums five columns
(`ft_attempted` defaulted to a zero series when absent, the other four
accessed unguardedly) and computes rounded TS% and eFG%, each defined as
0.0 when its denominator is not positive. -/
def efficiency_metrics (t : StatTable) : Except String (List (String × ℚ)) :=
  if t.rows.isEmpty then .ok []
  else
    match t.col? "points", t.col? "fg_attempted", t.col? "fg_made", t.col? "fg3_made" with
    | some pts, some fga, some fgm, some fg3m =>
      let fta := (t.col? "ft_attempted").getD [0]
      let tsa := fga.sum + (44/100) * fta.sum
      let ts_pct := if 0 < tsa then pts.sum / (2 * tsa) * 100 else 0
      let efg_pct := if 0 < fga.sum then (fgm.sum + (1/2) * fg3m.sum) / fga.sum * 100 else 0
      .ok [("ts_pct", pyRound ts_pct 1),
           ("efg_pct", pyRound efg_pct 1),
           ("games", (t.rows.length : ℚ))]
    | _, _, _, _ => .error "KeyError"

/-- pandas `Series.replace(0, 1)` applied cell-wise. -/
def replaceZero (x : ℚ) : ℚ := if x = 0 then 1 else x

/-- `game_efficiency` (stats.py lines 195-227): appends per-game `ts_pct`
and `efg_pct` columns; a zero denominator is replaced by 1 before the
division (`.replace(0, 1)`), not mapped to 0. -/
def game_efficiency (t : StatTable) : Except String StatTable :=
  if t.rows.isEmpty then .ok t
  else
    match t.col? "points", t.col? "fg_attempted", t.col? "fg_made", t.col? "fg3_made" with
    | some pts, some fga, some fgm, some fg3m =>
      let fta := (t.col? "ft_attempted").getD (List.replicate t.rows.length 0)
      let tsa := List.zipWith (fun a b => a + (44/100) * b) fga fta
      let tsCol := List.zipWith (fun p d => pyRound (p / (2 * replaceZero d) * 100) 1) pts tsa
      let efgCol := List.zipWith (fun mm a => pyRound ((mm.1 + (1/2) * mm.2) / replaceZero a * 100) 1)
        (fgm.zip fg3m) fga
      .ok (addColumn (addColumn t "ts_pct" tsCol) "efg_pct" efgCol)
    | _, _, _, _ => .error "KeyError"

/-- The trailing window of length at most `w` ending at position `i`
(0-based, oldest-first), as produced by pandas
`rolling(window = w, min_periods = 1)`. -/
def rollWindow (xs : List ℚ) (i w : ℕ) : List ℚ :=
  (xs.take (i + 1)).drop (i + 1 - w)

/-- One rolling-mean column over an oldest-first series, rounded to one
decimal as in the source. -/
def rollingColumn (w : ℕ) (xs : List ℚ) : List ℚ :=
  (List.range xs.length).map fun i => pyRound (listMean (rollWindow xs i w)) 1

/-- `rolling_averages` (stats.py lines 230-277): rows are newest-first, so
each kept metric is reversed to oldest-first, windowed with
`min_periods = 1`, rounded to one decimal, and reversed back; the result is
appended as column `{metric}_roll_{window}`. Metrics absent from the table
are skipped. (pandas rejects `window = 0`, so only `w ≥ 1` is meaningful.) -/
def rolling_averages (t : StatTable) (metrics : List String) (windows : List ℕ) : StatTable :=
  if t.rows.isEmpty then t
  else
    (metrics.filter (fun m => t.cols.contains m)).foldl
      (fun acc m =>
        windows.foldl
          (fun acc2 w =>
            match acc2.col? m with
            | none => acc2
            | some vs =>
              addColumn acc2 (m ++ "_roll_" ++ toString w) ((rollingColumn w vs.reverse).reverse))
          acc)
      t

/-- The coefficient of variation as computed at stats.py line 329:
`std/mean × 100` when the mean is positive, else `0.0`. -/
def consistencyCV (m s : ℚ) : ℚ := if 0 < m then s / m * 100 else 0

/-- The CV bucketing chain of stats.py lines 332-339. -/
def consistencyCategory (cv : ℚ) : String :=
  if cv < 20 then "very_consistent"
  else if cv < 35 then "consistent"
  else if cv < 50 then "moderate"
  else "volatile"

/-- One metric's entry in the `consistency_score` result
(stats.py lines 341-348). -/
structure ConsEntry where
  mean : ℚ
  std : ℚ
  cv : ℚ
  category : String
  high : ℤ
  low : ℤ
deriving DecidableEq, Repr

/-- The entry built for one metric column; `none` when the standard
deviation is not representable (see `sampleStd?`). The category is decided
on the unrounded CV; the reported mean/std/cv are rounded to one decimal. -/
def consEntry? (vs : List ℚ) : Option ConsEntry :=
  match sampleStd? vs with
  | none => none
  | some s =>
    let m := listMean vs
    let cv := consistencyCV m s
    some ⟨pyRound m 1, pyRound s 1, pyRound cv 1, consistencyCategory cv,
          pyInt (listMax vs), pyInt (listMin vs)⟩

/-- `consistency_score` (stats.py lines 280-350): empty table gives an
empty dict; metrics absent from the table are skipped. -/
def consistency_score (t : StatTable) (metrics : List String) :
    List (String × Option ConsEntry) :=
  if t.rows.isEmpty then []
  else
    (metrics.filter (fun m => t.cols.contains m)).map fun m =>
      (m, consEntry? ((t.col? m).getD []))

/-- One row of a box-score table as read by `top_performers`
(stats.py lines 133-146). `none` models a field the row does not carry
(absent column, for which `row.get` supplies the default) or a `None`
value (mapped to the default by `or`). -/
structure BoxRow where
  personId : Option ℤ
  name : Option String
  firstName : Option String
  familyName : Option String
  points : Option ℚ
  reboundsTotal : Option ℚ
  assists : Option ℚ
  steals : Option ℚ
  blocks : Option ℚ
  fieldGoalsMade : Option ℚ
  fieldGoalsAttempted : Option ℚ
deriving DecidableEq, Repr

/-- One entry of the `top_performers` result list. -/
structure Performer where
  player_id : ℤ
  name : String
  first_name : String
  last_name : String
  points : ℤ
  rebounds : ℤ
  assists : ℤ
  steals : ℤ
  blocks : ℤ
  fg_made : ℤ
  fg_attempted : ℤ
deriving DecidableEq, Repr

/-- The dict built for one box-score row (stats.py lines 134-146): string
fields default to `'Unknown'` / `''`, counting stats default to 0 and are
coerced with `int(...)`. -/
def performerOfRow (r : BoxRow) : Performer :=
  ⟨r.personId.getD 0,
   r.name.getD "Unknown",
   r.firstName.getD "",
   r.familyName.getD "",
   pyInt (r.points.getD 0),
   pyInt (r.reboundsTotal.getD 0),
   pyInt (r.assists.getD 0),
   pyInt (r.steals.getD 0),
   pyInt (r.blocks.getD 0),
   pyInt (r.fieldGoalsMade.getD 0),
   pyInt (r.fieldGoalsAttempted.getD 0)⟩

/-- Python tuple comparison `(points, assists, rebounds)` read descending:
`tripleGe x y` says `x` may precede `y` in the sorted output. -/
def tripleGe (x y : ℤ × ℤ × ℤ) : Bool :=
  decide (y.1 < x.1) ||
    (decide (y.1 = x.1) &&
      (decide (y.2.1 < x.2.1) || (decide (y.2.1 = x.2.1) && decide (y.2.2 ≤ x.2.2))))

/-- The sort key of stats.py line 149. -/
def perfKey (p : Performer) : ℤ × ℤ × ℤ := (p.points, p.assists, p.rebounds)

/-- `top_performers` (stats.py lines 113-151): one dict per row, then a
stable descending sort on `(points, assists, rebounds)` (Python
`list.sort(..., reverse = True)` is stable, as is `mergeSort`). -/
def top_performers (box : List BoxRow) : List Performer :=
  if box.isEmpty then []
  else (box.map performerOfRow).mergeSort fun a b => tripleGe (perfKey a) (perfKey b)

/-- One shot event, as consumed by the shot-zone aggregators. `Option`
fields model NaN/missing values. -/
structure Shot where
  shot_made : Bool
  shot_type : String
  shot_zone : Option String
  player_id : Option ℤ
  player_name : Option String
  game_id : ℤ
  team_abbr : Option String
deriving DecidableEq, Repr

/-- A shot-event DataFrame: typed rows plus the column-name list so the
source's required-column checks can be stated. -/
structure ShotTable where
  cols : List String
  rows : List Shot
deriving DecidableEq, Repr

/-- Point value of one shot: 3 for a made 3PT, 2 for any other made shot,
0 for a miss (stats.py lines 409-412 and 489-492, identical logic). -/
def shotPoints (s : Shot) : ℤ :=
  if s.shot_made ∧ s.shot_type = "3PT" then 3
  else if s.shot_made then 2
  else 0

/-- The flat PPS stats dict produced by `calc_stats`
(stats.py lines 402-423). -/
structure PPSStats where
  pps : ℚ
  total_points : ℤ
  total_shots : ℕ
  fg_pct : ℚ
deriving DecidableEq, Repr

/-- `calc_stats` (stats.py lines 402-423). -/
def calcStats (shots : List Shot) : PPSStats :=
  if shots.length = 0 then ⟨0, 0, 0, 0⟩
  else
    let points := (shots.map shotPoints).sum
    let made := (shots.filter (fun s => s.shot_made)).length
    ⟨pyRound ((points : ℚ) / shots.length) 3, points, shots.length,
     pyRound ((made : ℚ) / shots.length * 100) 1⟩

/-- Result shape of `points_per_shot`: the empty dict, a flat stats dict,
or an overall/by-zone pair. -/
inductive PPSResult where
  | empty
  | flat (stats : PPSStats)
  | zoned (overall : PPSStats) (by_zone : List (String × PPSStats))
deriving DecidableEq, Repr

/-- The `shots_data` filtering step of stats.py lines 397-400: drop
Backcourt shots when requested and the zone column exists; a NaN zone is
kept, since `NaN != 'Backcourt'` holds in pandas. -/
def backcourtFiltered (t : ShotTable) (exclude_backcourt : Bool) : List Shot :=
  if exclude_backcourt ∧ t.cols.contains "shot_zone" then
    t.rows.filter fun s => s.shot_zone ≠ some "Backcourt"
  else t.rows

/-- `points_per_shot` (stats.py lines 353-440): empty table or missing
required column gives the empty dict; Backcourt shots are dropped when
`exclude_backcourt` and the zone column exists; zones iterate in
first-occurrence order of `dropna().unique()`. -/
def points_per_shot (t : ShotTable) (by_zone exclude_backcourt : Bool) : PPSResult :=
  if t.rows.isEmpty then .empty
  else
    let required := ["shot_made", "shot_type"] ++ if by_zone then ["shot_zone"] else []
    if required.any (fun c => !(t.cols.contains c)) then .empty
    else
      let shots_data := backcourtFiltered t exclude_backcourt
      let overall := calcStats shots_data
      if by_zone then
        let zones := uniqueFirst (shots_data.filterMap (fun s => s.shot_zone))
        .zoned overall
          (zones.map fun z => (z, calcStats (shots_data.filter fun s => s.shot_zone = some z)))
      else .flat overall

/-- One player-zone stats record (stats.py lines 517-525). -/
structure PZStat where
  player_id : ℤ
  player_name : String
  zone : String
  ppg : ℚ
  total_points : ℤ
  total_shots : ℕ
  games : ℕ
deriving DecidableEq, Repr

/-- A zone's leader entry (stats.py lines 539-546). -/
structure Leader where
  player_id : ℤ
  player_name : String
  ppg : ℚ
  total_points : ℤ
  total_shots : ℕ
  games : ℕ
deriving DecidableEq, Repr

/-- Lexicographic comparison of pandas groupby keys
`(player_id, player_name, shot_zone)` (groupby sorts its keys). -/
def keyLe (a b : ℤ × String × String) : Bool :=
  decide (a.1 < b.1) ||
    (decide (a.1 = b.1) &&
      (decide (a.2.1 < b.2.1) || (decide (a.2.1 = b.2.1) && decide (a.2.2 ≤ b.2.2))))

/-- The Backcourt filter of stats.py lines 485-486 (applied before
grouping in `zone_leaders`). -/
def zlRows (t : ShotTable) (exclude_backcourt : Bool) : List Shot :=
  if exclude_backcourt then t.rows.filter (fun s => s.shot_zone ≠ some "Backcourt")
  else t.rows

/-- The pandas groupby key of one row, `none` when any of
`(player_id, player_name, shot_zone)` is NaN (such rows are dropped by
`groupby`). -/
def zlKey (s : Shot) : Option (ℤ × String × String) := do
  let pid ← s.player_id
  let nm ← s.player_name
  let z ← s.shot_zone
  pure (pid, nm, z)

/-- One group's stats record (stats.py lines 501-525): skip groups with
fewer than `min_shots` shots or no distinct game, else record total
points, unique games, and points per unique game. -/
def pzStatOfKey (rows : List Shot) (min_shots : ℕ) (k : ℤ × String × String) :
    Option PZStat :=
  let group := rows.filter fun s =>
    s.player_id = some k.1 ∧ s.player_name = some k.2.1 ∧ s.shot_zone = some k.2.2
  if group.length < min_shots then none
  else
    let total_points := (group.map shotPoints).sum
    let unique_games := (uniqueFirst (group.map fun s => s.game_id)).length
    if unique_games = 0 then none
    else some ⟨k.1, k.2.1, k.2.2, (total_points : ℚ) / unique_games,
               total_points, group.length, unique_games⟩

/-- The `player_zone_stats` list of stats.py lines 497-525: group the
(Backcourt-filtered) rows by `(player_id, player_name, shot_zone)` —
pandas `groupby` drops rows with a NaN in any key and iterates keys in
sorted order. -/
def zoneLeadersStats (t : ShotTable) (min_shots : ℕ) (exclude_backcourt : Bool) :
    List PZStat :=
  let rows := zlRows t exclude_backcourt
  let keys := uniqueFirst (rows.filterMap zlKey)
  (keys.mergeSort keyLe).filterMap (pzStatOfKey rows min_shots)

/-- The leader dict entry rendered from a stats record
(stats.py lines 539-546): `ppg` is rounded to two decimals. -/
def renderLeader (e : PZStat) : Leader :=
  ⟨e.player_id, e.player_name, pyRound e.ppg 2, e.total_points, e.total_shots, e.games⟩

/-- `zone_leaders` (stats.py lines 443-548): empty table or missing
required column gives the empty dict; otherwise, for each zone appearing in
the qualifying stats (first-occurrence order), the first stats record
attaining the maximal `ppg` (`idxmax`) is rendered as that zone's leader. -/
def zone_leaders (t : ShotTable) (min_shots : ℕ) (exclude_backcourt : Bool) :
    List (String × Leader) :=
  if t.rows.isEmpty then []
  else if (["player_id", "player_name", "shot_zone", "shot_made", "shot_type",
            "game_id"]).any (fun c => !(t.cols.contains c)) then []
  else
    let stats := zoneLeadersStats t min_shots exclude_backcourt
    if stats.isEmpty then []
    else
      (uniqueFirst (stats.map fun e => e.zone)).filterMap fun z =>
        (argmaxFirst (fun e => e.ppg) (stats.filter fun e => e.zone = z)).map fun e =>
          (z, renderLeader e)

/-- One team's row in the `high_value_zone_usage` result, before ranking
(stats.py lines 739-746). -/
structure TeamUsageRaw where
  team_abbr : String
  high_value_pct : ℚ
  restricted_area_pct : ℚ
  three_point_pct : ℚ
  low_value_pct : ℚ
  total_shots : ℕ
deriving DecidableEq, Repr

/-- One row of the ranked `high_value_zone_usage` DataFrame. -/
structure TeamUsage where
  team_abbr : String
  high_value_pct : ℚ
  restricted_area_pct : ℚ
  three_point_pct : ℚ
  low_value_pct : ℚ
  total_shots : ℕ
  rank : ℕ
deriving DecidableEq, Repr

/-- `high_value_zone_usage` (stats.py lines 661-756): empty table or
missing required column gives an empty DataFrame; per team (in
first-occurrence order of `dropna().unique()`), the share of shots from
high-value zones (default Restricted Area plus the three 3-point zones),
from the Restricted Area, from 3-point zones, and from everything else
(`~isin`, so a NaN zone counts as low-value); rows are then sorted by
`high_value_pct` descending and ranked 1..n. -/
def high_value_zone_usage (t : ShotTable) (high_value_zones : Option (List String))
    (exclude_backcourt : Bool) : List TeamUsage :=
  if t.rows.isEmpty then []
  else if (["shot_zone", "team_abbr"]).any (fun c => !(t.cols.contains c)) then []
  else
    let shots_data :=
      if exclude_backcourt then t.rows.filter (fun s => s.shot_zone ≠ some "Backcourt")
      else t.rows
    let hv := high_value_zones.getD
      ["Restricted Area", "Right Corner 3", "Left Corner 3", "Above the Break 3"]
    let three := ["Right Corner 3", "Left Corner 3", "Above the Break 3"]
    let teams := uniqueFirst (shots_data.filterMap fun s => s.team_abbr)
    let raw : List TeamUsageRaw := teams.filterMap fun tm =>
      let team_shots := shots_data.filter fun s => s.team_abbr = some tm
      let total := team_shots.length
      if total = 0 then none
      else
        let inZones (zs : List String) : ℕ :=
          (team_shots.filter fun s =>
            match s.shot_zone with
            | some z => zs.contains z
            | none => false).length
        let lowCount : ℕ :=
          (team_shots.filter fun s =>
            match s.shot_zone with
            | some z => !(hv.contains z)
            | none => true).length
        some ⟨tm,
              pyRound ((inZones hv : ℚ) / total * 100) 1,
              pyRound (((team_shots.filter fun s => s.shot_zone = some "Restricted Area").length : ℚ) / total * 100) 1,
              pyRound ((inZones three : ℚ) / total * 100) 1,
              pyRound ((lowCount : ℚ) / total * 100) 1,
              total⟩
    if raw.isEmpty then []
    else
      let sorted := raw.mergeSort fun a b => decide (b.high_value_pct ≤ a.high_value_pct)
      sorted.enum.map fun p =>
        ⟨p.2.team_abbr, p.2.high_value_pct, p.2.restricted_area_pct,
         p.2.three_point_pct, p.2.low_value_pct, p.2.total_shots, p.1 + 1⟩

theorem colIdx?_eq_none_iff (c : String) (l : List String) :
    colIdx? c l = none ↔ c ∉ l := by
  induction l with
  | nil => simp [colIdx?]
  | cons x xs ih =>
    by_cases hx : x = c
    · simp [colIdx?, hx]
    · simp only [colIdx?, if_neg hx, Option.map_eq_none', ih, List.mem_cons]
      constructor
      · intro h hc
        rcases hc with hc | hc
        · exact hx hc.symm
        · exact h hc
      · intro h hc
        exact h (Or.inr hc)

theorem colIdx?_lt_length {c : String} {l : List String} {i : ℕ}
    (h : colIdx? c l = some i) : i < l.length := by
  induction l generalizing i with
  | nil => simp [colIdx?] at h
  | cons x xs ih =>
    by_cases hx : x = c
    · rw [colIdx?, if_pos hx] at h
      cases h
      simp
    · simp only [colIdx?, if_neg hx, Option.map_eq_some'] at h
      obtain ⟨j, hj, rfl⟩ := h
      have := ih hj
      simp only [List.length_cons]
      omega

theorem colIdx?_append (c : String) (l₁ l₂ : List String) :
    colIdx? c (l₁ ++ l₂) = (colIdx? c l₁).or ((colIdx? c l₂).map (· + l₁.length)) := by
  induction l₁ with
  | nil => simp [colIdx?]
  | cons x xs ih =>
    by_cases hx : x = c
    · simp [colIdx?, hx]
    · rw [List.cons_append, colIdx?, if_neg hx, ih, colIdx?, if_neg hx]
      cases colIdx? c xs with
      | some i => rfl
      | none =>
        cases colIdx? c l₂ with
        | none => rfl
        | some j =>
          simp only [Option.map_none', Option.none_or, Option.map_some',
            List.length_cons, Option.some.injEq]
          omega

theorem col?_eq_none_iff (t : StatTable) (c : String) :
    t.col? c = none ↔ c ∉ t.cols := by
  simp [StatTable.col?, Option.map_eq_none', colIdx?_eq_none_iff]

theorem mem_cols_of_col? {t : StatTable} {c : String} {vs : List ℚ}
    (h : t.col? c = some vs) : c ∈ t.cols := by
  by_contra hc
  rw [(col?_eq_none_iff t c).mpr hc] at h
  cases h

theorem col?_length {t : StatTable} {c : String} {vs : List ℚ}
    (h : t.col? c = some vs) : vs.length = t.rows.length := by
  unfold StatTable.col? at h
  cases hi : colIdx? c t.cols with
  | none => rw [hi] at h; cases h
  | some i =>
    rw [hi] at h
    simp only [Option.map_some', Option.some.injEq] at h
    rw [← h, List.length_map]

theorem zipWith_append_getD_at (rows : List (List ℚ)) (vals : List ℚ) (k : ℕ)
    (hlen : ∀ r ∈ rows, r.length = k) (hv : vals.length = rows.length) :
    (List.zipWith (fun r v => r ++ [v]) rows vals).map (fun r => r.getD k 0) = vals := by
  induction rows generalizing vals with
  | nil =>
    cases vals with
    | nil => rfl
    | cons v vs => simp at hv
  | cons r rs ih =>
    cases vals with
    | nil => simp at hv
    | cons v vs =>
      have hr : r.length = k := hlen r (List.mem_cons_self r rs)
      simp only [List.zipWith_cons_cons, List.map_cons]
      have h1 : (r ++ [v]).getD k 0 = v := by
        rw [List.getD_append_right r [v] 0 k (le_of_eq hr),
          show k - r.length = 0 by omega]
        rfl
      rw [h1, ih vs (fun x hx => hlen x (List.mem_cons_of_mem r hx)) (by simpa using hv)]

theorem zipWith_append_getD_lt (rows : List (List ℚ)) (vals : List ℚ) (k i : ℕ)
    (hlen : ∀ r ∈ rows, r.length = k) (hi : i < k) (hv : vals.length = rows.length) :
    (List.zipWith (fun r v => r ++ [v]) rows vals).map (fun r => r.getD i 0)
      = rows.map (fun r => r.getD i 0) := by
  induction rows generalizing vals with
  | nil => simp
  | cons r rs ih =>
    cases vals with
    | nil => simp at hv
    | cons v vs =>
      have hr : r.length = k := hlen r (List.mem_cons_self r rs)
      simp only [List.zipWith_cons_cons, List.map_cons]
      rw [List.getD_append r [v] 0 i (by omega)]
      rw [ih vs (fun x hx => hlen x (List.mem_cons_of_mem r hx)) (by simpa using hv)]

theorem addColumn_col?_self (t : StatTable) (n : String) (vals : List ℚ)
    (hn : n ∉ t.cols) (hlen : ∀ r ∈ t.rows, r.length = t.cols.length)
    (hv : vals.length = t.rows.length) :
    (addColumn t n vals).col? n = some vals := by
  unfold addColumn StatTable.col?
  simp only
  rw [colIdx?_append, (colIdx?_eq_none_iff n t.cols).mpr hn]
  simp only [colIdx?, eq_self_iff_true, if_true, Option.map_some', Option.none_or,
    Nat.zero_add, Option.some.injEq]
  exact zipWith_append_getD_at t.rows vals t.cols.length hlen hv

theorem addColumn_col?_other (t : StatTable) (n : String) (vals : List ℚ) (c : String)
    (hc : c ∈ t.cols) (hlen : ∀ r ∈ t.rows, r.length = t.cols.length)
    (hv : vals.length = t.rows.length) :
    (addColumn t n vals).col? c = t.col? c := by
  cases hi : colIdx? c t.cols with
  | none => exact absurd hc ((colIdx?_eq_none_iff c t.cols).mp hi)
  | some i =>
    have hilt := colIdx?_lt_length hi
    unfold addColumn StatTable.col?
    simp only
    rw [colIdx?_append, hi]
    simp only [Option.or, Option.map_some', Option.some.injEq]
    exact zipWith_append_getD_lt t.rows vals t.cols.length i hlen hilt hv

theorem mem_uniqueFirst_of_le {α : Type} [DecidableEq α] (x : α) :
    ∀ (n : ℕ) (l : List α), l.length ≤ n → (x ∈ uniqueFirst l ↔ x ∈ l)
  | 0, [], _ => by simp [uniqueFirst]
  | 0, y :: ys, h => by simp at h
  | n + 1, [], _ => by simp [uniqueFirst]
  | n + 1, y :: ys, h => by
    have hrec := mem_uniqueFirst_of_le x n (ys.filter (fun z => z ≠ y))
      (le_trans (List.length_filter_le _ _) (Nat.le_of_succ_le_succ (by simpa using h)))
    rw [uniqueFirst]
    by_cases hxy : x = y
    · simp [hxy]
    · simp only [List.mem_cons, hxy, false_or]
      rw [hrec]
      simp only [List.mem_filter, decide_eq_true_eq, ne_eq]
      constructor
      · exact fun hx => hx.1
      · exact fun hx => ⟨hx, hxy⟩

theorem mem_uniqueFirst {α : Type} [DecidableEq α] (l : List α) (x : α) :
    x ∈ uniqueFirst l ↔ x ∈ l :=
  mem_uniqueFirst_of_le x l.length l le_rfl

theorem argmaxFirst_eq_none_iff {α : Type} (f : α → ℚ) (l : List α) :
    argmaxFirst f l = none ↔ l = [] := by
  cases l with
  | nil => simp [argmaxFirst]
  | cons a l' =>
    rw [argmaxFirst]
    cases argmaxFirst f l' with
    | none => simp
    | some y => by_cases h : f a < f y <;> simp [h]

theorem argmaxFirst_mem {α : Type} (f : α → ℚ) :
    ∀ (l : List α) (x : α), argmaxFirst f l = some x → x ∈ l
  | [], x, h => by simp [argmaxFirst] at h
  | a :: l, x, h => by
    rw [argmaxFirst] at h
    cases hrec : argmaxFirst f l with
    | none =>
      simp only [hrec] at h
      cases h
      exact List.mem_cons_self a l
    | some y =>
      simp only [hrec] at h
      by_cases hlt : f a < f y
      · rw [if_pos hlt] at h
        cases h
        exact List.mem_cons_of_mem a (argmaxFirst_mem f l x hrec)
      · rw [if_neg hlt] at h
        cases h
        exact List.mem_cons_self a l

theorem argmaxFirst_le {α : Type} (f : α → ℚ) :
    ∀ (l : List α) (x : α), argmaxFirst f l = some x → ∀ y ∈ l, f y ≤ f x
  | [], x, h => by simp [argmaxFirst] at h
  | a :: l, x, h => by
    intro y hy
    rw [argmaxFirst] at h
    cases hrec : argmaxFirst f l with
    | none =>
      simp only [hrec] at h
      cases h
      have hl : l = [] := (argmaxFirst_eq_none_iff f l).mp hrec
      subst hl
      rcases List.mem_cons.mp hy with rfl | hy'
      · exact le_rfl
      · cases hy'
    | some z =>
      simp only [hrec] at h
      by_cases hlt : f a < f z
      · rw [if_pos hlt] at h
        cases h
        rcases List.mem_cons.mp hy with rfl | hy'
        · exact le_of_lt hlt
        · exact argmaxFirst_le f l x hrec y hy'
      · rw [if_neg hlt] at h
        cases h
        rcases List.mem_cons.mp hy with rfl | hy'
        · exact le_rfl
        · exact le_trans (argmaxFirst_le f l z hrec y hy') (le_of_not_lt hlt)

theorem argmaxFirst_isSome {α : Type} (f : α → ℚ) (l : List α) (h : l ≠ []) :
    ∃ x, argmaxFirst f l = some x := by
  cases l with
  | nil => exact absurd rfl h
  | cons a l' =>
    rw [argmaxFirst]
    cases argmaxFirst f l' with
    | none => exact ⟨a, rfl⟩
    | some y => by_cases hlt : f a < f y <;> simp [hlt]

theorem listMean_const (l : List ℚ) (c : ℚ) (hne : l ≠ []) (hc : ∀ x ∈ l, x = c) :
    listMean l = c := by
  have hsum : l.sum = l.length • c := List.sum_eq_card_nsmul l c hc
  have hlen : (l.length : ℚ) ≠ 0 := by
    simpa using List.length_pos.mpr hne |>.ne'
  rw [listMean, hsum, nsmul_eq_mul, mul_div_cancel_left₀ _ hlen]

/-- C8: for a non-empty table carrying the seven expected columns,
`season_averages` returns the arithmetic mean of each counting stat
together with the game count; the mean of a constant column is that
constant; an empty input yields an empty result. -/
theorem season_averages_mean_spec (t : StatTable)
    (pts reb ast stl blk fgp fg3p : List ℚ)
    (hne : t.rows ≠ [])
    (h1 : t.col? "points" = some pts) (h2 : t.col? "rebounds" = some reb)
    (h3 : t.col? "assists" = some ast) (h4 : t.col? "steals" = some stl)
    (h5 : t.col? "blocks" = some blk) (h6 : t.col? "fg_pct" = some fgp)
    (h7 : t.col? "fg3_pct" = some fg3p) :
    season_averages t = .ok
      [("games", (t.rows.length : ℚ)), ("points", listMean pts),
       ("rebounds", listMean reb), ("assists", listMean ast),
       ("steals", listMean stl), ("blocks", listMean blk),
       ("fg_pct", listMean fgp), ("fg3_pct", listMean fg3p)]
    ∧ (∀ c : ℚ, (∀ x ∈ pts, x = c) → listMean pts = c)
    ∧ (∀ cols : List String, season_averages ⟨cols, []⟩ = .ok []) := by
  have hemp : t.rows.isEmpty = false := by
    cases hr : t.rows with
    | nil => exact absurd hr hne
    | cons a l => rfl
  refine ⟨?_, ?_, ?_⟩
  · rw [season_averages, hemp]
    simp only [Bool.false_eq_true, if_false, h1, h2, h3, h4, h5, h6, h7]
  · intro c hc
    have hlen := col?_length h1
    have hpts : pts ≠ [] := by
      intro h
      subst h
      simp only [List.length_nil] at hlen
      exact hne (List.length_eq_zero.mp hlen.symm)
    exact listMean_const pts c hpts hc
  · intro cols
    rfl

/-- Witness for C8, the spec's scenario: three games with 10, 20 and 30
points average to 20 points over 3 games. -/
theorem season_averages_mean_spec_witness :
    season_averages
      ⟨["points", "rebounds", "assists", "steals", "blocks", "fg_pct", "fg3_pct"],
       [[10, 5, 3, 1, 0, 50, 40], [20, 5, 3, 1, 0, 50, 40], [30, 5, 3, 1, 0, 50, 40]]⟩
      = .ok [("games", 3), ("points", 20), ("rebounds", 5), ("assists", 3),
             ("steals", 1), ("blocks", 0), ("fg_pct", 50), ("fg3_pct", 40)] := by
  have h := season_averages_mean_spec
    ⟨["points", "rebounds", "assists", "steals", "blocks", "fg_pct", "fg3_pct"],
     [[10, 5, 3, 1, 0, 50, 40], [20, 5, 3, 1, 0, 50, 40], [30, 5, 3, 1, 0, 50, 40]]⟩
    [10, 20, 30] [5, 5, 5] [3, 3, 3] [1, 1, 1] [0, 0, 0] [50, 50, 50] [40, 40, 40]
    (by simp) rfl rfl rfl rfl rfl rfl rfl
  rw [h.1]
  norm_num [listMean]

/-- The claim's "preceding 5 (or fewer)" window: the five games after the
five most recent ones, however many of them exist. -/
def trendPrevWindow (vs : List ℚ) : List ℚ := (vs.drop 5).take 5

/-- The claim's classification: up when the recent mean exceeds the prior
mean by more than 10%, down when more than 10% below, else stable; with an
empty previous window the recent mean is its own baseline. -/
def trendDirectionSpec (vs : List ℚ) : String :=
  let ra := listMean (vs.take 5)
  let pa := if trendPrevWindow vs = [] then ra else listMean (trendPrevWindow vs)
  if pa * (11/10) < ra then "up"
  else if ra < pa * (9/10) then "down"
  else "stable"

/-- C5: on a non-empty table, `scoring_trend` compares the mean of the 5
most recent games with the mean of the preceding up-to-5 games (the recent
mean is its own baseline when no preceding games exist), classifying with
the strict 10% thresholds; with fewer than 5 games the previous window is
empty. -/
theorem scoring_trend_direction_correct (t : StatTable) (metric : String) (vs : List ℚ)
    (hne : t.rows ≠ []) (hcol : t.col? metric = some vs) :
    scoring_trend t metric
      = some ⟨trendDirectionSpec vs, listMean vs, listMean (vs.take 5),
              listMax vs, listMin vs, vs.headD 0⟩
    ∧ (vs.length < 5 → trendPrevWindow vs = [] ∧ vs.take 5 = vs) := by
  have hemp : t.rows.isEmpty = false := by
    cases hr : t.rows with
    | nil => exact absurd hr hne
    | cons a l => rfl
  have hvs : vs ≠ [] := by
    have hlen := col?_length hcol
    intro h
    subst h
    simp only [List.length_nil] at hlen
    exact hne (List.length_eq_zero.mp hlen.symm)
  have htake : vs.take 5 ≠ [] := by
    simp only [ne_eq, List.take_eq_nil_iff]
    push_neg
    exact ⟨by omega, hvs⟩
  constructor
  · rw [scoring_trend, hemp]
    simp only [Bool.false_eq_true, if_false, hcol]
    have hrecent : (if vs.length ≥ 5 then vs.take 5 else vs) = vs.take 5 := by
      by_cases h5 : vs.length ≥ 5
      · rw [if_pos h5]
      · rw [if_neg h5, List.take_of_length_le (by omega)]
    have hprev :
        (if vs.length ≥ 10 then (vs.drop 5).take 5 else vs.drop (vs.take 5).length)
          = trendPrevWindow vs := by
      by_cases h10 : vs.length ≥ 10
      · rw [if_pos h10, trendPrevWindow]
      · rw [if_neg h10, trendPrevWindow, List.length_take]
        by_cases h5 : vs.length ≥ 5
        · have hmin : min 5 vs.length = 5 := by omega
          rw [hmin, List.take_of_length_le (by rw [List.length_drop]; omega)]
        · have hmin : min 5 vs.length = vs.length := by omega
          rw [hmin, List.drop_length, List.drop_eq_nil_of_le (by omega), List.take_nil]
    rw [hrecent, hprev]
    have htkE : (vs.take 5).isEmpty = false := by
      cases hr : vs.take 5 with
      | nil => exact absurd hr htake
      | cons a l => rfl
    rw [htkE]
    simp only [Bool.false_eq_true, if_false, trendDirectionSpec]
    by_cases hpe : trendPrevWindow vs = []
    · have : (trendPrevWindow vs).isEmpty = true := by
        rw [hpe]
        rfl
      rw [this]
      simp only [if_true, hpe, if_pos rfl]
    · have : (trendPrevWindow vs).isEmpty = false := by
        cases hr : trendPrevWindow vs with
        | nil => exact absurd hr hpe
        | cons a l => rfl
      rw [this]
      simp only [Bool.false_eq_true, if_false, if_neg hpe]
  · intro h5
    constructor
    · rw [trendPrevWindow, List.drop_eq_nil_of_le (by omega), List.take_nil]
    · exact List.take_of_length_le (by omega)

/-- Witness for C5, the spec's scenario: points
[30,28,26,24,22,18,16,14,12,10] give recent mean 26, previous mean 14 and
direction up. -/
theorem scoring_trend_direction_correct_witness :
    scoring_trend ⟨["points"], [[30], [28], [26], [24], [22], [18], [16], [14], [12], [10]]⟩
      "points" = some ⟨"up", 20, 26, 30, 10, 30⟩ := by
  have h := scoring_trend_direction_correct
    ⟨["points"], [[30], [28], [26], [24], [22], [18], [16], [14], [12], [10]]⟩
    "points" [30, 28, 26, 24, 22, 18, 16, 14, 12, 10] (by simp) rfl
  rw [h.1]
  norm_num [trendDirectionSpec, trendPrevWindow, listMean, listMax, listMin,
    List.cons_ne_nil]

/-- C4 counterexample: on the single column [-10, -20, -30] the mean is
-20 and the sample standard deviation is 10, so the claim's formula
CV = std/mean × 100 gives -50; yet `consistency_score` reports cv = 0,
because the source zeroes the CV whenever the mean is not positive
(`if mean_val > 0`), not only when it is 0. -/
theorem consistency_score_cv_counterexample :
    consistency_score ⟨["plus_minus"], [[-10], [-20], [-30]]⟩ ["plus_minus"]
      = [("plus_minus", some ⟨-20, 10, 0, "very_consistent", -10, -30⟩)]
    ∧ (10 : ℚ) / (-20) * 100 = -50
    ∧ (-50 : ℚ) ≠ 0 := by
  have hstd : sampleStd? [(-10 : ℚ), -20, -30] = some 10 := by
    rw [sampleStd?]
    norm_num [sampleVar, listMean, ratSqrt?, show Int.toNat 100 = 100 from rfl]
  have hcs : consistency_score ⟨["plus_minus"], [[-10], [-20], [-30]]⟩ ["plus_minus"]
      = [("plus_minus", consEntry? [-10, -20, -30])] := rfl
  have hentry : consEntry? [(-10 : ℚ), -20, -30]
      = some ⟨-20, 10, 0, "very_consistent", -10, -30⟩ := by
    simp only [consEntry?, hstd]
    norm_num [consistencyCV, consistencyCategory, listMean, listMax, listMin,
      pyRound, roundHalfEven, pyInt, max_def, min_def, Int.ceil_neg]
  refine ⟨?_, by norm_num, by norm_num⟩
  rw [hcs, hentry]

/-- C4 (amended): `consistency_score` computes CV = std/mean × 100 when the
mean is positive and defines CV as 0 whenever the mean is not positive (in
particular when it is 0), and buckets the unrounded CV with exact
boundaries: CV < 20 is very_consistent, 20 ≤ CV < 35 is consistent (so
exactly 20 is consistent, not very_consistent), 35 ≤ CV < 50 is moderate,
and 50 ≤ CV is volatile (so exactly 50 is volatile). -/
theorem consistency_score_cv_buckets (t : StatTable) (metrics : List String)
    (m : String) (vs : List ℚ) (s : ℚ)
    (hne : t.rows ≠ []) (hm : m ∈ metrics) (hcol : t.col? m = some vs)
    (hs : sampleStd? vs = some s) :
    (m, some (⟨pyRound (listMean vs) 1, pyRound s 1,
        pyRound (consistencyCV (listMean vs) s) 1,
        consistencyCategory (consistencyCV (listMean vs) s),
        pyInt (listMax vs), pyInt (listMin vs)⟩ : ConsEntry))
      ∈ consistency_score t metrics
    ∧ (0 < listMean vs → consistencyCV (listMean vs) s = s / listMean vs * 100)
    ∧ (listMean vs ≤ 0 → consistencyCV (listMean vs) s = 0)
    ∧ (∀ cv : ℚ,
        (cv < 20 → consistencyCategory cv = "very_consistent")
        ∧ (20 ≤ cv → cv < 35 → consistencyCategory cv = "consistent")
        ∧ (35 ≤ cv → cv < 50 → consistencyCategory cv = "moderate")
        ∧ (50 ≤ cv → consistencyCategory cv = "volatile")) := by
  have hemp : t.rows.isEmpty = false := by
    cases hr : t.rows with
    | nil => exact absurd hr hne
    | cons a l => rfl
  refine ⟨?_, ?_, ?_, ?_⟩
  · rw [consistency_score, hemp]
    simp only [Bool.false_eq_true, if_false]
    refine List.mem_map.mpr ⟨m, List.mem_filter.mpr ⟨hm, ?_⟩, ?_⟩
    · exact List.elem_eq_true_of_mem (mem_cols_of_col? hcol)
    · rw [hcol]
      simp only [Option.getD_some, consEntry?, hs]
  · intro h
    rw [consistencyCV, if_pos h]
  · intro h
    rw [consistencyCV, if_neg (not_lt.mpr h)]
  · intro cv
    refine ⟨fun h => ?_, fun h1 h2 => ?_, fun h1 h2 => ?_, fun h1 => ?_⟩
    · rw [consistencyCategory, if_pos h]
    · rw [consistencyCategory, if_neg (not_lt.mpr h1), if_pos h2]
    · rw [consistencyCategory, if_neg (not_lt.mpr (by linarith)),
        if_neg (not_lt.mpr h1), if_pos h2]
    · rw [consistencyCategory, if_neg (not_lt.mpr (by linarith)),
        if_neg (not_lt.mpr (by linarith)), if_neg (not_lt.mpr h1)]

/-- Witness for C4 (amended): the column [10, 20, 30] has mean 20, std 10,
CV exactly 50, and lands in the volatile bucket. -/
theorem consistency_score_cv_buckets_witness :
    ("points", some (⟨20, 10, 50, "volatile", 30, 10⟩ : ConsEntry))
      ∈ consistency_score ⟨["points"], [[10], [20], [30]]⟩ ["points"]
    ∧ consistencyCategory 50 = "volatile" := by
  have hstd : sampleStd? [(10 : ℚ), 20, 30] = some 10 := by
    rw [sampleStd?]
    norm_num [sampleVar, listMean, ratSqrt?, show Int.toNat 100 = 100 from rfl]
  have h := consistency_score_cv_buckets ⟨["points"], [[10], [20], [30]]⟩
    ["points"] "points" [10, 20, 30] 10 (by simp) (by simp) rfl hstd
  have heq : (⟨pyRound (listMean [10, 20, 30]) 1, pyRound 10 1,
      pyRound (consistencyCV (listMean [10, 20, 30]) 10) 1,
      consistencyCategory (consistencyCV (listMean [10, 20, 30]) 10),
      pyInt (listMax [10, 20, 30]), pyInt (listMin [10, 20, 30])⟩ : ConsEntry)
      = ⟨20, 10, 50, "volatile", 30, 10⟩ := by
    norm_num [consistencyCV, consistencyCategory, listMean, listMax, listMin,
      pyRound, roundHalfEven, pyInt, max_def, min_def]
  exact ⟨heq ▸ h.1, (h.2.2.2 50).2.2.2 le_rfl⟩

/-- C3 counterexample: with window size 1 the rolling column is NOT the
original series unchanged — the source rounds each rolling mean to one
decimal, so the single value 10.25 becomes 10.2 in `fg_pct_roll_1`. -/
theorem rolling_averages_window1_counterexample :
    rolling_averages ⟨["fg_pct"], [[41/4]]⟩ ["fg_pct"] [1]
      = ⟨["fg_pct", "fg_pct_roll_1"], [[41/4, 51/5]]⟩
    ∧ (51/5 : ℚ) ≠ 41/4 := by
  refine ⟨?_, by norm_num⟩
  have h3 : pyRound ((41 : ℚ)/4) 1 = 51/5 := by
    norm_num [pyRound, roundHalfEven]
  have h2 : (rollingColumn 1 [(41/4 : ℚ)].reverse).reverse = [51/5] := by
    norm_num [rollingColumn, rollWindow, listMean, h3,
      show List.range 1 = [0] from rfl]
  calc rolling_averages ⟨["fg_pct"], [[41/4]]⟩ ["fg_pct"] [1]
      = addColumn ⟨["fg_pct"], [[41/4]]⟩ "fg_pct_roll_1"
          ((rollingColumn 1 [(41/4 : ℚ)].reverse).reverse) := rfl
    _ = addColumn ⟨["fg_pct"], [[41/4]]⟩ "fg_pct_roll_1" [51/5] := by rw [h2]
    _ = ⟨["fg_pct", "fg_pct_roll_1"], [[41/4, 51/5]]⟩ := rfl

/-- C3 (amended): for a non-empty table and a window `w ≥ 1`, the added
`{metric}_roll_{w}` column is the newest-first series reversed to
chronological order, windowed by trailing means rounded to one decimal,
and reversed back: entry `i` (oldest-first) is the rounded mean of the
last `w` games ending at `i` when `w` games exist, and of all `i + 1`
available games otherwise; with window size 1 the column is the original
series rounded to one decimal (the identity only up to that rounding). -/
theorem rolling_averages_window_correct (t : StatTable) (m : String) (w : ℕ)
    (vs : List ℚ)
    (hw : 1 ≤ w) (hcol : t.col? m = some vs)
    (hname : (m ++ "_roll_" ++ toString w) ∉ t.cols)
    (hlen : ∀ r ∈ t.rows, r.length = t.cols.length)
    (hne : t.rows ≠ []) :
    (rolling_averages t [m] [w]).col? (m ++ "_roll_" ++ toString w)
        = some ((rollingColumn w vs.reverse).reverse)
    ∧ (∀ xs : List ℚ, ∀ i, ∀ _hi : i < xs.length,
        (rollingColumn w xs).getD i 0 = pyRound (listMean (rollWindow xs i w)) 1
        ∧ (w ≤ i + 1 → rollWindow xs i w = (xs.drop (i + 1 - w)).take w)
        ∧ (i + 1 ≤ w → rollWindow xs i w = xs.take (i + 1)))
    ∧ (w = 1 → (rollingColumn 1 vs.reverse).reverse = vs.map (fun x => pyRound x 1)) := by
  have hemp : t.rows.isEmpty = false := by
    cases hr : t.rows with
    | nil => exact absurd hr hne
    | cons a l => rfl
  refine ⟨?_, ?_, ?_⟩
  · rw [rolling_averages, hemp]
    simp only [Bool.false_eq_true, if_false, List.filter,
      List.elem_eq_true_of_mem (mem_cols_of_col? hcol), List.foldl_cons,
      List.foldl_nil, hcol]
    exact addColumn_col?_self t _ _ hname hlen
      (by rw [List.length_reverse, rollingColumn, List.length_map,
        List.length_range, List.length_reverse, col?_length hcol])
  · intro xs i hi
    refine ⟨?_, ?_, ?_⟩
    · rw [rollingColumn,
        List.getD_eq_getElem _ 0 (by rw [List.length_map, List.length_range]; exact hi),
        List.getElem_map, List.getElem_range]
    · intro hwle
      rw [rollWindow, List.drop_take, show i + 1 - (i + 1 - w) = w from by omega]
    · intro hle
      rw [rollWindow, show i + 1 - w = 0 from by omega, List.drop_zero]
  · intro hw1
    subst hw1
    have hcol1 : ∀ xs : List ℚ, rollingColumn 1 xs = xs.map (fun x => pyRound x 1) := by
      intro xs
      apply List.ext_getElem?
      intro i
      rw [rollingColumn, List.getElem?_map, List.getElem?_map]
      by_cases hi : i < xs.length
      · rw [List.getElem?_range hi, List.getElem?_eq_getElem hi]
        simp only [Option.map_some', Option.some.injEq]
        have hwin : rollWindow xs i 1 = [xs[i]] := by
          rw [rollWindow, show i + 1 - 1 = i from by omega, List.drop_take,
            show i + 1 - i = 1 from by omega,
            List.drop_eq_getElem_cons hi, List.take_succ_cons, List.take_zero]
        rw [hwin]
        congr 1
        rw [listMean]
        norm_num
      · rw [List.getElem?_eq_none (by simpa using not_lt.mp hi),
          List.getElem?_eq_none (by simpa [List.length_range] using not_lt.mp hi)]
        rfl
    rw [hcol1, ← List.map_reverse, List.reverse_reverse]

/-- Witness for C3 (amended): the tests' example — stored points [30, 20,
10] (newest first), window 2 — yields the rolling column [25, 15, 10]. -/
theorem rolling_averages_window_correct_witness :
    (rolling_averages ⟨["points"], [[30], [20], [10]]⟩ ["points"] [2]).col?
      "points_roll_2" = some [25, 15, 10] := by
  have h := rolling_averages_window_correct ⟨["points"], [[30], [20], [10]]⟩
    "points" 2 [30, 20, 10] (by norm_num) rfl (by decide) (by
      intro r hr
      simp only [List.mem_cons] at hr
      rcases hr with rfl | rfl | rfl | h
      · rfl
      · rfl
      · rfl
      · cases h) (by simp)
  rw [show ("points" ++ "_roll_" ++ toString 2) = "points_roll_2" from rfl] at h
  rw [h.1]
  norm_num [rollingColumn, rollWindow, listMean, pyRound, roundHalfEven,
    show List.range 3 = [0, 1, 2] from rfl]

theorem contains_eq_false_of_not_mem {l : List String} {c : String} (h : c ∉ l) :
    l.contains c = false := by
  cases hc : l.contains c with
  | false => rfl
  | true => exact absurd (List.mem_of_elem_eq_true hc) h

/-- C1 counterexample: on the non-empty single-column table {rebounds: [5]}
both `season_averages` and `efficiency_metrics` access the missing
`points` column unguardedly and raise `KeyError` (modelled as
`Except.error`), instead of returning an empty dict. -/
theorem missing_column_counterexample :
    season_averages ⟨["rebounds"], [[5]]⟩ = .error "KeyError"
    ∧ efficiency_metrics ⟨["rebounds"], [[5]]⟩ = .error "KeyError"
    ∧ (Except.error "KeyError" ≠ (Except.ok [] : Except String (List (String × ℚ)))) := by
  refine ⟨rfl, rfl, ?_⟩
  intro h
  cases h

/-- C1 (amended): `scoring_trend`, `points_per_shot`, `zone_leaders` and
`high_value_zone_usage` return an empty result (and raise nothing) when a
required column is missing; `season_averages` and `efficiency_metrics`
return an empty dict only for an empty table and raise `KeyError` when a
required column (here: `points`) is missing from a non-empty one
(`ft_attempted` alone is optional for `efficiency_metrics`). -/
theorem missing_columns_empty_or_raise
    (t₁ : StatTable) (metric : String)
    (t₂ : ShotTable) (by_zone eb : Bool)
    (t₃ : ShotTable) (ms : ℕ) (eb₃ : Bool)
    (t₄ : ShotTable) (hv : Option (List String)) (eb₄ : Bool)
    (t₅ t₆ : StatTable) :
    (t₁.col? metric = none → scoring_trend t₁ metric = none)
    ∧ (("shot_made" ∉ t₂.cols ∨ "shot_type" ∉ t₂.cols
        ∨ (by_zone = true ∧ "shot_zone" ∉ t₂.cols))
        → points_per_shot t₂ by_zone eb = .empty)
    ∧ (("player_id" ∉ t₃.cols ∨ "player_name" ∉ t₃.cols ∨ "shot_zone" ∉ t₃.cols
        ∨ "shot_made" ∉ t₃.cols ∨ "shot_type" ∉ t₃.cols ∨ "game_id" ∉ t₃.cols)
        → zone_leaders t₃ ms eb₃ = [])
    ∧ (("shot_zone" ∉ t₄.cols ∨ "team_abbr" ∉ t₄.cols)
        → high_value_zone_usage t₄ hv eb₄ = [])
    ∧ (t₅.rows ≠ [] → t₅.col? "points" = none → season_averages t₅ = .error "KeyError")
    ∧ (t₆.rows ≠ [] → t₆.col? "points" = none → efficiency_metrics t₆ = .error "KeyError") := by
  refine ⟨?_, ?_, ?_, ?_, ?_, ?_⟩
  · intro hcol
    rw [scoring_trend]
    by_cases hemp : t₁.rows.isEmpty
    · rw [if_pos hemp]
    · rw [if_neg hemp, hcol]
  · intro hmiss
    rw [points_per_shot]
    by_cases hemp : t₂.rows.isEmpty
    · rw [if_pos hemp]
    · rw [if_neg hemp]
      have hany : (["shot_made", "shot_type"]
          ++ if by_zone then ["shot_zone"] else []).any
            (fun c => !(t₂.cols.contains c)) = true := by
        rw [List.any_eq_true]
        rcases hmiss with h | h | ⟨hbz, h⟩
        · exact ⟨"shot_made", by simp,
            by rw [contains_eq_false_of_not_mem h]; rfl⟩
        · exact ⟨"shot_type", by simp,
            by rw [contains_eq_false_of_not_mem h]; rfl⟩
        · exact ⟨"shot_zone", by simp [hbz],
            by rw [contains_eq_false_of_not_mem h]; rfl⟩
      rw [if_pos hany]
  · intro hmiss
    rw [zone_leaders]
    by_cases hemp : t₃.rows.isEmpty
    · rw [if_pos hemp]
    · rw [if_neg hemp]
      have hany : (["player_id", "player_name", "shot_zone", "shot_made",
          "shot_type", "game_id"]).any (fun c => !(t₃.cols.contains c)) = true := by
        rw [List.any_eq_true]
        rcases hmiss with h | h | h | h | h | h
        · exact ⟨"player_id", by simp, by rw [contains_eq_false_of_not_mem h]; rfl⟩
        · exact ⟨"player_name", by simp, by rw [contains_eq_false_of_not_mem h]; rfl⟩
        · exact ⟨"shot_zone", by simp, by rw [contains_eq_false_of_not_mem h]; rfl⟩
        · exact ⟨"shot_made", by simp, by rw [contains_eq_false_of_not_mem h]; rfl⟩
        · exact ⟨"shot_type", by simp, by rw [contains_eq_false_of_not_mem h]; rfl⟩
        · exact ⟨"game_id", by simp, by rw [contains_eq_false_of_not_mem h]; rfl⟩
      rw [if_pos hany]
  · intro hmiss
    rw [high_value_zone_usage]
    by_cases hemp : t₄.rows.isEmpty
    · rw [if_pos hemp]
    · rw [if_neg hemp]
      have hany : (["shot_zone", "team_abbr"]).any
          (fun c => !(t₄.cols.contains c)) = true := by
        rw [List.any_eq_true]
        rcases hmiss with h | h
        · exact ⟨"shot_zone", by simp, by rw [contains_eq_false_of_not_mem h]; rfl⟩
        · exact ⟨"team_abbr", by simp, by rw [contains_eq_false_of_not_mem h]; rfl⟩
      rw [if_pos hany]
  · intro hne hcol
    have hemp : t₅.rows.isEmpty = false := by
      cases hr : t₅.rows with
      | nil => exact absurd hr hne
      | cons a l => rfl
    rw [season_averages, hemp]
    simp only [Bool.false_eq_true, if_false, hcol]
  · intro hne hcol
    have hemp : t₆.rows.isEmpty = false := by
      cases hr : t₆.rows with
      | nil => exact absurd hr hne
      | cons a l => rfl
    rw [efficiency_metrics, hemp]
    simp only [Bool.false_eq_true, if_false, hcol]

/-- Witness for C1 (amended), at concrete one-row tables each missing a
required column. -/
theorem missing_columns_empty_or_raise_witness :
    scoring_trend ⟨["points"], [[1]]⟩ "assists" = none
    ∧ points_per_shot ⟨["shot_made"], [⟨false, "2PT", none, none, none, 0, none⟩]⟩
        false true = .empty
    ∧ zone_leaders ⟨["player_id"], [⟨false, "2PT", none, none, none, 0, none⟩]⟩
        5 true = []
    ∧ high_value_zone_usage ⟨["shot_zone"], [⟨false, "2PT", none, none, none, 0, none⟩]⟩
        none true = []
    ∧ season_averages ⟨["assists"], [[7]]⟩ = .error "KeyError"
    ∧ efficiency_metrics ⟨["assists"], [[7]]⟩ = .error "KeyError" := by
  have h := missing_columns_empty_or_raise
    ⟨["points"], [[1]]⟩ "assists"
    ⟨["shot_made"], [⟨false, "2PT", none, none, none, 0, none⟩]⟩ false true
    ⟨["player_id"], [⟨false, "2PT", none, none, none, 0, none⟩]⟩ 5 true
    ⟨["shot_zone"], [⟨false, "2PT", none, none, none, 0, none⟩]⟩ none true
    ⟨["assists"], [[7]]⟩ ⟨["assists"], [[7]]⟩
  exact ⟨h.1 rfl, h.2.1 (Or.inr (Or.inl (by decide))),
    h.2.2.1 (Or.inr (Or.inl (by decide))), h.2.2.2.1 (Or.inr (by decide)),
    h.2.2.2.2.1 (by simp) rfl, h.2.2.2.2.2 (by simp) rfl⟩

theorem mem_zipWith_append {rows : List (List ℚ)} {vals : List ℚ} {r : List ℚ}
    (h : r ∈ List.zipWith (fun r v => r ++ [v]) rows vals) :
    ∃ a ∈ rows, ∃ b, r = a ++ [b] := by
  induction rows generalizing vals with
  | nil => simp at h
  | cons a rows ih =>
    cases vals with
    | nil => simp at h
    | cons v vs =>
      rw [List.zipWith_cons_cons, List.mem_cons] at h
      rcases h with rfl | h
      · exact ⟨a, List.mem_cons_self a rows, v, rfl⟩
      · obtain ⟨a', ha', b, rfl⟩ := ih h
        exact ⟨a', List.mem_cons_of_mem a ha', b, rfl⟩

theorem addColumn_rows_length (t : StatTable) (n : String) (vals : List ℚ)
    (hlen : ∀ r ∈ t.rows, r.length = t.cols.length) :
    ∀ r ∈ (addColumn t n vals).rows, r.length = (addColumn t n vals).cols.length := by
  intro r hr
  obtain ⟨a, ha, b, rfl⟩ := mem_zipWith_append hr
  rw [addColumn]
  simp only [List.length_append, List.length_cons, List.length_nil]
  rw [hlen a ha]

/-- C2 counterexample: a game line with 5 points and no field-goal or
free-throw attempts has a zero TS denominator, yet `game_efficiency`
reports ts_pct = 250.0 (the zero denominator is replaced by 1, so
5 / 2 × 100), not 0.0 as the claim states. -/
theorem game_efficiency_zero_denominator_counterexample :
    game_efficiency ⟨["points", "fg_attempted", "fg_made", "fg3_made"], [[5, 0, 0, 0]]⟩
      = .ok ⟨["points", "fg_attempted", "fg_made", "fg3_made", "ts_pct", "efg_pct"],
             [[5, 0, 0, 0, 250, 0]]⟩
    ∧ (250 : ℚ) ≠ 0 := by
  have hts : pyRound ((5 : ℚ) / (2 * replaceZero (0 + (44/100) * 0)) * 100) 1 = 250 := by
    norm_num [replaceZero, pyRound, roundHalfEven]
  have hefg : pyRound (((0 : ℚ) + (1/2) * 0) / replaceZero 0 * 100) 1 = 0 := by
    norm_num [replaceZero, pyRound, roundHalfEven]
  refine ⟨?_, by norm_num⟩
  calc game_efficiency ⟨["points", "fg_attempted", "fg_made", "fg3_made"], [[5, 0, 0, 0]]⟩
      = .ok (addColumn (addColumn
          ⟨["points", "fg_attempted", "fg_made", "fg3_made"], [[5, 0, 0, 0]]⟩
          "ts_pct" [pyRound ((5 : ℚ) / (2 * replaceZero (0 + (44/100) * 0)) * 100) 1])
          "efg_pct" [pyRound (((0 : ℚ) + (1/2) * 0) / replaceZero 0 * 100) 1]) := rfl
    _ = .ok ⟨["points", "fg_attempted", "fg_made", "fg3_made", "ts_pct", "efg_pct"],
             [[5, 0, 0, 0, 250, 0]]⟩ := by
        rw [hts, hefg]
        rfl

/-- C2 (amended): `efficiency_metrics` reports, rounded to one decimal,
TS% = points / (2 × (FGA + 0.44×FTA)) × 100 and
eFG% = (FGM + 0.5×3PM) / FGA × 100, each defined as 0.0 when its
denominator is not positive; `game_efficiency` adds per-game columns with
the same formulas but replaces a zero denominator by 1 before dividing, so
a per-game ratio with a zero denominator equals the rounded numerator-based
value (numerator × 50 for TS%) and is 0.0 only when the numerator is 0. -/
theorem efficiency_formulas_correct (t : StatTable)
    (pts fga fgm fg3m fta1 ftaN : List ℚ)
    (hne : t.rows ≠ [])
    (hp : t.col? "points" = some pts) (ha : t.col? "fg_attempted" = some fga)
    (hm : t.col? "fg_made" = some fgm) (h3 : t.col? "fg3_made" = some fg3m)
    (hf1 : (t.col? "ft_attempted").getD [0] = fta1)
    (hfN : (t.col? "ft_attempted").getD (List.replicate t.rows.length 0) = ftaN)
    (hts : "ts_pct" ∉ t.cols) (hefg : "efg_pct" ∉ t.cols)
    (hlen : ∀ r ∈ t.rows, r.length = t.cols.length) :
    efficiency_metrics t = .ok
      [("ts_pct", pyRound (if 0 < fga.sum + (44/100) * fta1.sum
            then pts.sum / (2 * (fga.sum + (44/100) * fta1.sum)) * 100 else 0) 1),
       ("efg_pct", pyRound (if 0 < fga.sum
            then (fgm.sum + (1/2) * fg3m.sum) / fga.sum * 100 else 0) 1),
       ("games", (t.rows.length : ℚ))]
    ∧ pyRound 0 1 = 0
    ∧ (∃ t', game_efficiency t = .ok t'
        ∧ t'.col? "ts_pct" = some (List.zipWith
            (fun p d => pyRound (p / (2 * replaceZero d) * 100) 1) pts
            (List.zipWith (fun a b => a + (44/100) * b) fga ftaN))
        ∧ t'.col? "efg_pct" = some (List.zipWith
            (fun mm a => pyRound ((mm.1 + (1/2) * mm.2) / replaceZero a * 100) 1)
            (fgm.zip fg3m) fga))
    ∧ (∀ p d : ℚ, d = 0 →
        pyRound (p / (2 * replaceZero d) * 100) 1 = pyRound (p * 50) 1
        ∧ (p = 0 → pyRound (p / (2 * replaceZero d) * 100) 1 = 0)) := by
  have hemp : t.rows.isEmpty = false := by
    cases hr : t.rows with
    | nil => exact absurd hr hne
    | cons a l => rfl
  have hpl := col?_length hp
  have hal := col?_length ha
  have hml := col?_length hm
  have h3l := col?_length h3
  have hfNl : ftaN.length = t.rows.length := by
    rcases hcase : t.col? "ft_attempted" with _ | x
    · rw [hcase] at hfN
      simp only [Option.getD_none] at hfN
      rw [← hfN, List.length_replicate]
    · rw [hcase] at hfN
      simp only [Option.getD_some] at hfN
      rw [← hfN]
      exact col?_length hcase
  refine ⟨?_, by norm_num [pyRound, roundHalfEven], ?_, ?_⟩
  · rw [efficiency_metrics, hemp]
    simp only [Bool.false_eq_true, if_false, hp, ha, hm, h3, hf1]
  · rw [game_efficiency, hemp]
    simp only [Bool.false_eq_true, if_false, hp, ha, hm, h3, hfN]
    refine ⟨_, rfl, ?_, ?_⟩
    · rw [addColumn_col?_other _ "efg_pct" _ "ts_pct"
        (by rw [addColumn]; simp)
        (addColumn_rows_length t "ts_pct" _ hlen)
        (by
          rw [addColumn]
          simp only [List.length_zipWith, List.length_zip]
          rw [hml, h3l, hal, hpl, hfNl]
          simp)]
      exact addColumn_col?_self t "ts_pct" _ hts hlen
        (by
          simp only [List.length_zipWith]
          rw [hpl, hal, hfNl]
          simp)
    · exact addColumn_col?_self _ "efg_pct" _
        (by rw [addColumn]; simp [hefg])
        (addColumn_rows_length t "ts_pct" _ hlen)
        (by
          rw [addColumn]
          simp only [List.length_zipWith, List.length_zip]
          rw [hml, h3l, hal, hpl, hfNl]
          simp)
  · intro p d hd
    subst hd
    have harg : p / (2 * replaceZero 0) * 100 = p * 50 := by
      rw [replaceZero]
      norm_num
      ring
    refine ⟨by rw [harg], fun hp0 => ?_⟩
    subst hp0
    rw [harg]
    norm_num [pyRound, roundHalfEven]

/-- Witness for C2 (amended): one game with 30 points, 20 FGA, 4 FTA,
12 FGM, 2 3PM gives ts_pct 68.9 and efg_pct 65.0. -/
theorem efficiency_formulas_correct_witness :
    efficiency_metrics ⟨["points", "fg_attempted", "ft_attempted", "fg_made", "fg3_made"],
        [[30, 20, 4, 12, 2]]⟩
      = .ok [("ts_pct", 689/10), ("efg_pct", 65), ("games", 1)] := by
  have h := efficiency_formulas_correct
    ⟨["points", "fg_attempted", "ft_attempted", "fg_made", "fg3_made"],
     [[30, 20, 4, 12, 2]]⟩
    [30] [20] [12] [2] [4] [4] (by simp) rfl rfl rfl rfl rfl rfl
    (by decide) (by decide)
    (by
      intro r hr
      simp only [List.mem_cons] at hr
      rcases hr with rfl | h
      · rfl
      · cases h)
  rw [h.1]
  norm_num [pyRound, roundHalfEven]

/-- C6: with the required columns present, `points_per_shot` (without zone
breakdown) returns the flat stats of the Backcourt-filtered shots: total
points sums 3 per made 3PT, 2 per other made shot, 0 per miss; pps is
points divided by shot count (rounded to three decimals as in the source);
with `exclude_backcourt` on and a zone column present, no Backcourt shot
enters the calculation. -/
theorem points_per_shot_flat_correct (t : ShotTable) (eb : Bool)
    (hne : t.rows ≠ []) (h1 : "shot_made" ∈ t.cols) (h2 : "shot_type" ∈ t.cols) :
    points_per_shot t false eb = .flat (calcStats (backcourtFiltered t eb))
    ∧ (∀ shots : List Shot, shots ≠ [] →
        calcStats shots
          = ⟨pyRound (((shots.map shotPoints).sum : ℚ) / shots.length) 3,
             (shots.map shotPoints).sum, shots.length,
             pyRound (((shots.filter (fun s => s.shot_made)).length : ℚ)
               / shots.length * 100) 1⟩)
    ∧ (∀ s : Shot, (s.shot_made = true → s.shot_type = "3PT" → shotPoints s = 3)
        ∧ (s.shot_made = true → s.shot_type ≠ "3PT" → shotPoints s = 2)
        ∧ (s.shot_made = false → shotPoints s = 0))
    ∧ (t.cols.contains "shot_zone" = true →
        ∀ s ∈ backcourtFiltered t true, s.shot_zone ≠ some "Backcourt") := by
  have hemp : t.rows.isEmpty = false := by
    cases hr : t.rows with
    | nil => exact absurd hr hne
    | cons a l => rfl
  refine ⟨?_, ?_, ?_, ?_⟩
  · rw [points_per_shot, hemp]
    simp only [Bool.false_eq_true, if_false, List.append_nil]
    have hany : (["shot_made", "shot_type"]).any (fun c => !(t.cols.contains c)) = false := by
      rw [List.any_eq_false]
      intro c hc
      simp only [List.mem_cons, List.not_mem_nil, or_false] at hc
      rcases hc with rfl | rfl
      · simpa [List.contains, List.elem_eq_true_of_mem h1] using h1
      · simpa [List.contains, List.elem_eq_true_of_mem h2] using h2
    rw [hany]
    rfl
  · intro shots hs
    rw [calcStats, if_neg (by
      intro h
      exact hs (List.length_eq_zero.mp h))]
  · intro s
    refine ⟨fun hm h3 => ?_, fun hm h3 => ?_, fun hm => ?_⟩
    · rw [shotPoints, if_pos ⟨by rw [hm], h3⟩]
    · rw [shotPoints, if_neg (fun hand => h3 hand.2), if_pos (by rw [hm])]
    · rw [shotPoints, if_neg (fun hand => by rw [hm] at hand; exact Bool.false_ne_true hand.1),
        if_neg (by rw [hm]; exact Bool.false_ne_true)]
  · intro hz s hs
    rw [backcourtFiltered, if_pos ⟨rfl, hz⟩] at hs
    exact of_decide_eq_true (List.mem_filter.mp hs).2

/-- Witness for C6, the spec's scenario: a made 2PT, a made 3PT and a miss
give pps 1.667, 5 total points over 3 shots (and fg_pct 66.7). -/
theorem points_per_shot_flat_correct_witness :
    points_per_shot ⟨["shot_made", "shot_type"],
        [⟨true, "2PT", none, none, none, 0, none⟩,
         ⟨true, "3PT", none, none, none, 0, none⟩,
         ⟨false, "2PT", none, none, none, 0, none⟩]⟩ false true
      = .flat ⟨1667/1000, 5, 3, 667/10⟩ := by
  have h := points_per_shot_flat_correct ⟨["shot_made", "shot_type"],
    [⟨true, "2PT", none, none, none, 0, none⟩,
     ⟨true, "3PT", none, none, none, 0, none⟩,
     ⟨false, "2PT", none, none, none, 0, none⟩]⟩ true
    (by simp) (by decide) (by decide)
  rw [h.1,
    show backcourtFiltered ⟨["shot_made", "shot_type"],
      [⟨true, "2PT", none, none, none, 0, none⟩,
       ⟨true, "3PT", none, none, none, 0, none⟩,
       ⟨false, "2PT", none, none, none, 0, none⟩]⟩ true
      = [⟨true, "2PT", none, none, none, 0, none⟩,
         ⟨true, "3PT", none, none, none, 0, none⟩,
         ⟨false, "2PT", none, none, none, 0, none⟩] from rfl,
    h.2.1 _ (by simp)]
  have hpts : (List.map shotPoints
      [⟨true, "2PT", none, none, none, 0, none⟩,
       ⟨true, "3PT", none, none, none, 0, none⟩,
       ⟨false, "2PT", none, none, none, 0, none⟩]).sum = 5 := by decide
  have hmade : (List.filter (fun s => s.shot_made)
      [(⟨true, "2PT", none, none, none, 0, none⟩ : Shot),
       ⟨true, "3PT", none, none, none, 0, none⟩,
       ⟨false, "2PT", none, none, none, 0, none⟩]).length = 2 := by decide
  rw [hpts, hmade]
  norm_num [pyRound, roundHalfEven]

theorem tripleGe_trans (x y z : ℤ × ℤ × ℤ) (h1 : tripleGe x y = true)
    (h2 : tripleGe y z = true) : tripleGe x z = true := by
  simp only [tripleGe, Bool.or_eq_true, Bool.and_eq_true, decide_eq_true_eq] at h1 h2 ⊢
  omega

theorem tripleGe_total (x y : ℤ × ℤ × ℤ) : (tripleGe x y || tripleGe y x) = true := by
  simp only [tripleGe, Bool.or_eq_true, Bool.and_eq_true, decide_eq_true_eq]
  omega

/-- C10: on a non-empty box score, `top_performers` returns exactly one
entry per input row (a permutation of the row-wise dicts), sorted
non-increasingly in the lexicographic (points, assists, rebounds) order;
a missing/null stat reads as 0 and every counting stat is coerced with
`int(...)` truncation. -/
theorem top_performers_sorted_correct (box : List BoxRow) (hne : box ≠ []) :
    (top_performers box).Perm (box.map performerOfRow)
    ∧ (top_performers box).length = box.length
    ∧ List.Pairwise (fun a b => tripleGe (perfKey a) (perfKey b) = true)
        (top_performers box)
    ∧ (∀ r : BoxRow, (r.points = none → (performerOfRow r).points = 0)
        ∧ ∀ q : ℚ, r.points = some q → (performerOfRow r).points = pyInt q) := by
  have hemp : box.isEmpty = false := by
    cases hr : box with
    | nil => exact absurd hr hne
    | cons a l => rfl
  have htop : top_performers box
      = (box.map performerOfRow).mergeSort
          (fun a b => tripleGe (perfKey a) (perfKey b)) := by
    rw [top_performers, hemp]
    rfl
  refine ⟨?_, ?_, ?_, ?_⟩
  · rw [htop]
    exact List.mergeSort_perm _ _
  · rw [htop, (List.mergeSort_perm _ _).length_eq, List.length_map]
  · rw [htop]
    exact List.sorted_mergeSort
      (fun a b c => tripleGe_trans (perfKey a) (perfKey b) (perfKey c))
      (fun a b => tripleGe_total (perfKey a) (perfKey b)) _
  · intro r
    refine ⟨fun h => ?_, fun q h => ?_⟩
    · show pyInt (r.points.getD 0) = 0
      rw [h]
      norm_num [pyInt]
    · show pyInt (r.points.getD 0) = pyInt q
      rw [h]
      rfl

/-- Witness for C10 at a three-row box score with a points tie broken by
assists. -/
theorem top_performers_sorted_correct_witness :
    top_performers
      [⟨some 1, some "A", none, none, some 10, some 5, some 7, none, none, none, none⟩,
       ⟨some 2, some "B", none, none, some 10, some 9, some 2, none, none, none, none⟩,
       ⟨some 3, some "C", none, none, some 20, some 1, some 1, none, none, none, none⟩]
      = [⟨3, "C", "", "", 20, 1, 1, 0, 0, 0, 0⟩,
         ⟨1, "A", "", "", 10, 5, 7, 0, 0, 0, 0⟩,
         ⟨2, "B", "", "", 10, 9, 2, 0, 0, 0, 0⟩]
    ∧ List.Pairwise (fun a b => tripleGe (perfKey a) (perfKey b) = true)
        (top_performers
          [⟨some 1, some "A", none, none, some 10, some 5, some 7, none, none, none, none⟩,
           ⟨some 2, some "B", none, none, some 10, some 9, some 2, none, none, none, none⟩,
           ⟨some 3, some "C", none, none, some 20, some 1, some 1, none, none, none, none⟩]) := by
  have h := top_performers_sorted_correct
    [⟨some 1, some "A", none, none, some 10, some 5, some 7, none, none, none, none⟩,
     ⟨some 2, some "B", none, none, some 10, some 9, some 2, none, none, none, none⟩,
     ⟨some 3, some "C", none, none, some 20, some 1, some 1, none, none, none, none⟩]
    (by simp)
  have hA : performerOfRow
      ⟨some 1, some "A", none, none, some 10, some 5, some 7, none, none, none, none⟩
      = ⟨1, "A", "", "", 10, 5, 7, 0, 0, 0, 0⟩ := by
    norm_num [performerOfRow, pyInt]
  have hB : performerOfRow
      ⟨some 2, some "B", none, none, some 10, some 9, some 2, none, none, none, none⟩
      = ⟨2, "B", "", "", 10, 9, 2, 0, 0, 0, 0⟩ := by
    norm_num [performerOfRow, pyInt]
  have hC : performerOfRow
      ⟨some 3, some "C", none, none, some 20, some 1, some 1, none, none, none, none⟩
      = ⟨3, "C", "", "", 20, 1, 1, 0, 0, 0, 0⟩ := by
    norm_num [performerOfRow, pyInt]
  have hstep : top_performers
      [⟨some 1, some "A", none, none, some 10, some 5, some 7, none, none, none, none⟩,
       ⟨some 2, some "B", none, none, some 10, some 9, some 2, none, none, none, none⟩,
       ⟨some 3, some "C", none, none, some 20, some 1, some 1, none, none, none, none⟩]
      = ([⟨some 1, some "A", none, none, some 10, some 5, some 7, none, none, none, none⟩,
          ⟨some 2, some "B", none, none, some 10, some 9, some 2, none, none, none, none⟩,
          (⟨some 3, some "C", none, none, some 20, some 1, some 1, none, none, none,
            none⟩ : BoxRow)].map performerOfRow).mergeSort
          (fun a b => tripleGe (perfKey a) (perfKey b)) := by
    rw [top_performers]
    rfl
  refine ⟨?_, h.2.2.1⟩
  rw [hstep]
  simp only [List.map_cons, List.map_nil, hA, hB, hC]
  simp [List.mergeSort, List.merge, tripleGe, perfKey]

theorem pzStatOfKey_some {rows : List Shot} {ms : ℕ} {k : ℤ × String × String}
    {e : PZStat} (h : pzStatOfKey rows ms k = some e) :
    e.player_id = k.1 ∧ e.player_name = k.2.1 ∧ e.zone = k.2.2
    ∧ ms ≤ e.total_shots ∧ e.games ≠ 0
    ∧ e.total_shots = (rows.filter fun s =>
        s.player_id = some k.1 ∧ s.player_name = some k.2.1
          ∧ s.shot_zone = some k.2.2).length
    ∧ e.total_points = ((rows.filter fun s =>
        s.player_id = some k.1 ∧ s.player_name = some k.2.1
          ∧ s.shot_zone = some k.2.2).map shotPoints).sum
    ∧ e.games = (uniqueFirst ((rows.filter fun s =>
        s.player_id = some k.1 ∧ s.player_name = some k.2.1
          ∧ s.shot_zone = some k.2.2).map fun s => s.game_id)).length
    ∧ e.ppg = (e.total_points : ℚ) / e.games := by
  simp only [pzStatOfKey] at h
  by_cases h1 : (rows.filter fun s =>
      s.player_id = some k.1 ∧ s.player_name = some k.2.1
        ∧ s.shot_zone = some k.2.2).length < ms
  · rw [if_pos h1] at h
    cases h
  · rw [if_neg h1] at h
    by_cases h2 : (uniqueFirst ((rows.filter fun s =>
        s.player_id = some k.1 ∧ s.player_name = some k.2.1
          ∧ s.shot_zone = some k.2.2).map fun s => s.game_id)).length = 0
    · rw [if_pos h2] at h
      cases h
    · rw [if_neg h2] at h
      cases h
      exact ⟨rfl, rfl, rfl, not_lt.mp h1, h2, rfl, rfl, rfl, rfl⟩

/-- C7: every zone leader reported by `zone_leaders` corresponds to a
qualifying stats record of that zone whose ppg is maximal among all
qualifying records of the zone; every stats record has at least
`min_shots` shots and ppg = total points in the zone divided by the
number of distinct games; and every player-zone group meeting the
threshold (with a non-NaN key) yields a stats record, so no qualifying
player is dropped. -/
theorem zone_leaders_max_ppg (t : ShotTable) (ms : ℕ) (eb : Bool) :
    (∀ z L, (z, L) ∈ zone_leaders t ms eb →
      ∃ e ∈ zoneLeadersStats t ms eb, e.zone = z ∧ L = renderLeader e
        ∧ ∀ e2 ∈ zoneLeadersStats t ms eb, e2.zone = z → e2.ppg ≤ e.ppg)
    ∧ (∀ e ∈ zoneLeadersStats t ms eb,
        ms ≤ e.total_shots ∧ 0 < e.games
        ∧ e.ppg = (e.total_points : ℚ) / e.games
        ∧ e.total_points = (((zlRows t eb).filter fun s =>
            s.player_id = some e.player_id ∧ s.player_name = some e.player_name
              ∧ s.shot_zone = some e.zone).map shotPoints).sum
        ∧ e.games = (uniqueFirst (((zlRows t eb).filter fun s =>
            s.player_id = some e.player_id ∧ s.player_name = some e.player_name
              ∧ s.shot_zone = some e.zone).map fun s => s.game_id)).length)
    ∧ (∀ pid : ℤ, ∀ nm z : String,
        ms ≤ ((zlRows t eb).filter fun s =>
          s.player_id = some pid ∧ s.player_name = some nm
            ∧ s.shot_zone = some z).length
        → ((zlRows t eb).filter fun s =>
            s.player_id = some pid ∧ s.player_name = some nm
              ∧ s.shot_zone = some z) ≠ []
        → ∃ e ∈ zoneLeadersStats t ms eb,
            e.player_id = pid ∧ e.player_name = nm ∧ e.zone = z) := by
  refine ⟨?_, ?_, ?_⟩
  · intro z L h
    simp only [zone_leaders] at h
    by_cases hemp : t.rows.isEmpty
    · rw [if_pos hemp] at h
      simp at h
    · rw [if_neg hemp] at h
      by_cases hany : (["player_id", "player_name", "shot_zone", "shot_made",
          "shot_type", "game_id"]).any (fun c => !(t.cols.contains c)) = true
      · rw [if_pos hany] at h
        simp at h
      · rw [if_neg hany] at h
        by_cases hse : (zoneLeadersStats t ms eb).isEmpty
        · rw [if_pos hse] at h
          simp at h
        · rw [if_neg hse] at h
          obtain ⟨z', hz', hg⟩ := List.mem_filterMap.mp h
          rw [Option.map_eq_some'] at hg
          obtain ⟨e, harg, heq⟩ := hg
          cases heq
          have hmem := argmaxFirst_mem _ _ _ harg
          have he := List.mem_filter.mp hmem
          refine ⟨e, he.1, of_decide_eq_true he.2, rfl, ?_⟩
          intro e2 he2 hz2
          exact argmaxFirst_le _ _ _ harg e2
            (List.mem_filter.mpr ⟨he2, by simp [hz2]⟩)
  · intro e he
    simp only [zoneLeadersStats] at he
    obtain ⟨k, hk, hfk⟩ := List.mem_filterMap.mp he
    obtain ⟨h1, h2, h3, h4, h5, h6, h7, h8, h9⟩ := pzStatOfKey_some hfk
    rw [h1, h2, h3]
    exact ⟨h4, Nat.pos_of_ne_zero h5, h9, h7, h8⟩
  · intro pid nm z hms hne
    obtain ⟨s, hs⟩ := List.exists_mem_of_ne_nil _ hne
    have hsr := List.mem_filter.mp hs
    obtain ⟨hpid, hnm, hz⟩ := of_decide_eq_true hsr.2
    have hkey : zlKey s = some (pid, nm, z) := by
      rw [zlKey, hpid, hnm, hz]
      rfl
    have hk3 : (pid, nm, z) ∈ (uniqueFirst ((zlRows t eb).filterMap zlKey)).mergeSort keyLe :=
      (List.mergeSort_perm _ _).mem_iff.mpr
        ((mem_uniqueFirst _ _).mpr (List.mem_filterMap.mpr ⟨s, hsr.1, hkey⟩))
    have hg0 : (uniqueFirst (((zlRows t eb).filter fun s =>
        s.player_id = some pid ∧ s.player_name = some nm
          ∧ s.shot_zone = some z).map fun s => s.game_id)).length ≠ 0 := by
      intro h0
      have hnil := List.length_eq_zero.mp h0
      have hmem : s.game_id ∈ uniqueFirst (((zlRows t eb).filter fun s =>
          s.player_id = some pid ∧ s.player_name = some nm
            ∧ s.shot_zone = some z).map fun s => s.game_id) :=
        (mem_uniqueFirst _ _).mpr (List.mem_map_of_mem _ hs)
      rw [hnil] at hmem
      cases hmem
    have hpz : pzStatOfKey (zlRows t eb) ms (pid, nm, z)
        = some ⟨pid, nm, z,
            (((((zlRows t eb).filter fun s =>
              s.player_id = some pid ∧ s.player_name = some nm
                ∧ s.shot_zone = some z).map shotPoints).sum : ℤ) : ℚ)
              / (uniqueFirst (((zlRows t eb).filter fun s =>
                  s.player_id = some pid ∧ s.player_name = some nm
                    ∧ s.shot_zone = some z).map fun s => s.game_id)).length,
            (((zlRows t eb).filter fun s =>
              s.player_id = some pid ∧ s.player_name = some nm
                ∧ s.shot_zone = some z).map shotPoints).sum,
            ((zlRows t eb).filter fun s =>
              s.player_id = some pid ∧ s.player_name = some nm
                ∧ s.shot_zone = some z).length,
            (uniqueFirst (((zlRows t eb).filter fun s =>
              s.player_id = some pid ∧ s.player_name = some nm
                ∧ s.shot_zone = some z).map fun s => s.game_id)).length⟩ := by
      simp only [pzStatOfKey]
      rw [if_neg (not_lt.mpr hms), if_neg hg0]
    obtain ⟨e, hfe⟩ : ∃ e, pzStatOfKey (zlRows t eb) ms (pid, nm, z) = some e := ⟨_, hpz⟩
    obtain ⟨h1, h2, h3, _, _, _, _, _, _⟩ := pzStatOfKey_some hfe
    refine ⟨e, ?_, h1, h2, h3⟩
    simp only [zoneLeadersStats]
    exact List.mem_filterMap.mpr ⟨(pid, nm, z), hk3, hfe⟩

/-- Witness for C7: on two made 2PT shots by player 1 in the Restricted
Area across games 1 and 2 (threshold 2), the zone's leader is that player
with ppg 2 over 2 games. -/
theorem zone_leaders_max_ppg_witness :
    ∃ e ∈ zoneLeadersStats
        ⟨["player_id", "player_name", "shot_zone", "shot_made", "shot_type", "game_id"],
         [⟨true, "2PT", some "Restricted Area", some 1, some "A", 1, none⟩,
          ⟨true, "2PT", some "Restricted Area", some 1, some "A", 2, none⟩]⟩ 2 true,
      e.zone = "Restricted Area"
      ∧ (⟨1, "A", 2, 4, 2, 2⟩ : Leader) = renderLeader e
      ∧ ∀ e2 ∈ zoneLeadersStats
          ⟨["player_id", "player_name", "shot_zone", "shot_made", "shot_type", "game_id"],
           [⟨true, "2PT", some "Restricted Area", some 1, some "A", 1, none⟩,
            ⟨true, "2PT", some "Restricted Area", some 1, some "A", 2, none⟩]⟩ 2 true,
          e2.zone = "Restricted Area" → e2.ppg ≤ e.ppg := by
  have hpz : pzStatOfKey
      [⟨true, "2PT", some "Restricted Area", some 1, some "A", 1, none⟩,
       ⟨true, "2PT", some "Restricted Area", some 1, some "A", 2, none⟩] 2
      ((1 : ℤ), "A", "Restricted Area")
      = some ⟨1, "A", "Restricted Area", 2, 4, 2, 2⟩ := by
    rw [pzStatOfKey]
    norm_num [uniqueFirst, shotPoints, show ¬("2PT" = "3PT") from by decide]
  have hstats : zoneLeadersStats
      ⟨["player_id", "player_name", "shot_zone", "shot_made", "shot_type", "game_id"],
       [⟨true, "2PT", some "Restricted Area", some 1, some "A", 1, none⟩,
        ⟨true, "2PT", some "Restricted Area", some 1, some "A", 2, none⟩]⟩ 2 true
      = [⟨1, "A", "Restricted Area", 2, 4, 2, 2⟩] := by
    simp only [zoneLeadersStats]
    rw [show zlRows
        ⟨["player_id", "player_name", "shot_zone", "shot_made", "shot_type", "game_id"],
         [⟨true, "2PT", some "Restricted Area", some 1, some "A", 1, none⟩,
          ⟨true, "2PT", some "Restricted Area", some 1, some "A", 2, none⟩]⟩ true
        = [⟨true, "2PT", some "Restricted Area", some 1, some "A", 1, none⟩,
           ⟨true, "2PT", some "Restricted Area", some 1, some "A", 2, none⟩] from rfl,
      show List.filterMap zlKey
          [(⟨true, "2PT", some "Restricted Area", some 1, some "A", 1, none⟩ : Shot),
           ⟨true, "2PT", some "Restricted Area", some 1, some "A", 2, none⟩]
        = [((1 : ℤ), "A", "Restricted Area"), (1, "A", "Restricted Area")] from rfl]
    rw [show uniqueFirst [((1 : ℤ), "A", "Restricted Area"), (1, "A", "Restricted Area")]
        = [(1, "A", "Restricted Area")] from by
      rw [uniqueFirst]
      norm_num
      rw [uniqueFirst]]
    rw [show ([((1 : ℤ), "A", "Restricted Area")]).mergeSort keyLe
        = [((1 : ℤ), "A", "Restricted Area")] from by simp [List.mergeSort]]
    rw [List.filterMap_cons, hpz]
    rfl
  have hzl : zone_leaders
      ⟨["player_id", "player_name", "shot_zone", "shot_made", "shot_type", "game_id"],
       [⟨true, "2PT", some "Restricted Area", some 1, some "A", 1, none⟩,
        ⟨true, "2PT", some "Restricted Area", some 1, some "A", 2, none⟩]⟩ 2 true
      = [("Restricted Area", renderLeader ⟨1, "A", "Restricted Area", 2, 4, 2, 2⟩)] := by
    simp only [zone_leaders, hstats]
    norm_num [uniqueFirst]
    rfl
  have hL : renderLeader ⟨1, "A", "Restricted Area", 2, 4, 2, 2⟩
      = (⟨1, "A", 2, 4, 2, 2⟩ : Leader) := by
    rw [renderLeader]
    norm_num [pyRound, roundHalfEven]
  have hmem : ("Restricted Area", (⟨1, "A", 2, 4, 2, 2⟩ : Leader)) ∈ zone_leaders
      ⟨["player_id", "player_name", "shot_zone", "shot_made", "shot_type", "game_id"],
       [⟨true, "2PT", some "Restricted Area", some 1, some "A", 1, none⟩,
        ⟨true, "2PT", some "Restricted Area", some 1, some "A", 2, none⟩]⟩ 2 true := by
    rw [hzl, hL]
    exact List.mem_singleton.mpr rfl
  exact (zone_leaders_max_ppg _ 2 true).1 "Restricted Area" ⟨1, "A", 2, 4, 2, 2⟩ hmem

end Bulls
